import Mathlib

/-!
Verification of the PrintFlow MIS pricing/production calculation engine
specification against the repository.

The repository ships the frontend (calculator UI in
`src/frontend/next.config.js`, admin/template editor in `src/unnamed/part_001`)
but not the backend engine (`backend/app/engine`, per the README in
`src/unnamed/part_000`).  Definitions below that embed the engine are
therefore modelled from the spec; definitions that embed the frontend
(`handleCalculate`, `handleOptionToggle`, the template-editor payload, the
overlap-override payload field) are translated from the TypeScript source.

All dimensional and monetary quantities are exact rationals (the spec mandates
exact fixed-point decimals end-to-end).
-/

namespace PrintFlow

/-- Modelled from the spec: material unit of measure (area / linear / piece),
matching the admin UI options `m2` / `mb` / `pcs`. -/
inductive MatUnit
  | m2
  | mb
  | pcs
deriving DecidableEq, Repr, Inhabited

/-- Modelled from the spec: a material roll variant (spec §3); field names
follow the `MaterialVariant` interface in `src/unnamed/part_001`.  A `none`
roll width means the width is unconstrained. -/
structure MaterialVariant where
  width_cm : Option ℚ
  length_cm : Option ℚ
  cost_price_per_unit : ℚ
  markup_percentage : ℚ
  unit : MatUnit
  margin_w_cm : ℚ
  margin_h_cm : ℚ
  is_active : Bool
deriving DecidableEq, Repr, Inhabited

/-- Modelled from the spec: process calculation method (spec §3). -/
inductive ProcMethod
  | AREA
  | LINEAR
  | TIME
  | UNIT
deriving DecidableEq, Repr, Inhabited

/-- Modelled from the spec: a process definition (spec §3); field names follow
the `ProcessItem` interface in `src/unnamed/part_001`.  `time_qty` is the
fixed/estimated duration attribute for TIME processes, supplied by the
catalog (spec §4.4). -/
structure Process where
  method : ProcMethod
  unit_price : ℚ
  setup_fee : ℚ
  internal_cost : Option ℚ
  margin_w_cm : ℚ
  margin_h_cm : ℚ
  time_qty : ℚ
  is_active : Bool
deriving DecidableEq, Repr, Inhabited

/-- Modelled from the spec: the tagged material/process reference of a
template component (spec §3 and §9: a tagged union, never both, never
neither).  A material reference carries the material variant set. -/
inductive CompRef
  | material (variants : List MaterialVariant)
  | process (p : Process)
deriving DecidableEq, Repr, Inhabited

/-- Modelled from the spec: a template component (spec §3). -/
structure TemplateComponent where
  id : Nat
  ref : CompRef
  is_required : Bool
  sort_order : Int
deriving DecidableEq, Repr, Inhabited

/-- Modelled from the spec: a product template (spec §3); field names follow
the `Template` interface in `src/unnamed/part_001`. -/
structure Template where
  default_margin_w_cm : ℚ
  default_margin_h_cm : ℚ
  default_overlap_cm : ℚ
  components : List TemplateComponent
deriving DecidableEq, Repr, Inhabited

/-- Modelled from the spec: one calculation request (spec §3 and §6). -/
structure CalcRequest where
  width_cm : ℚ
  height_cm : ℚ
  quantity : ℕ
  selected_options : List Nat
  overlap_override : Option ℚ
deriving DecidableEq, Repr, Inhabited

/-- Modelled from the spec: the engine error taxonomy (spec §7). -/
inductive CalcError
  | validation (msg : String)
  | configuration (msg : String)
  | notFound (msg : String)
deriving DecidableEq, Repr, Inhabited

/-! ## Margin Resolver (modelled from the spec, §4.1) -/

/-- Modelled from the spec: the raw per-component margin (width axis) before
the template-default fallback.  For a material component the spec leaves open
which variant margin applies before a variant is chosen; the most demanding
(maximal) active-variant margin is taken, consistent with the spec rule that
the product must satisfy the most demanding operation. -/
def rawMarginW : CompRef → ℚ
  | .material vs => ((vs.filter (·.is_active)).map (·.margin_w_cm)).foldl max 0
  | .process p => p.margin_w_cm

/-- Modelled from the spec: raw per-component margin, height axis. -/
def rawMarginH : CompRef → ℚ
  | .material vs => ((vs.filter (·.is_active)).map (·.margin_h_cm)).foldl max 0
  | .process p => p.margin_h_cm

/-- Modelled from the spec: effective margin precedence (width axis):
component margin if set and strictly positive, else the template default. -/
def effMarginW (tmpl : Template) (c : CompRef) : ℚ :=
  if 0 < rawMarginW c then rawMarginW c else tmpl.default_margin_w_cm

/-- Modelled from the spec: effective margin precedence, height axis. -/
def effMarginH (tmpl : Template) (c : CompRef) : ℚ :=
  if 0 < rawMarginH c then rawMarginH c else tmpl.default_margin_h_cm

/-- The template's required components. -/
def requiredComps (tmpl : Template) : List TemplateComponent :=
  tmpl.components.filter (·.is_required)

/-- Modelled from the spec: maximum effective width margin across the
required components (0 when there is none; the template invariant guarantees
at least one required component). -/
def maxEffMarginW (tmpl : Template) : ℚ :=
  ((requiredComps tmpl).map (fun c => effMarginW tmpl c.ref)).foldl max 0

/-- Modelled from the spec: maximum effective height margin across the
required components. -/
def maxEffMarginH (tmpl : Template) : ℚ :=
  ((requiredComps tmpl).map (fun c => effMarginH tmpl c.ref)).foldl max 0

/-- Modelled from the spec: gross production width `net + 2 × max margin`. -/
def grossWidth (w : ℚ) (tmpl : Template) : ℚ := w + 2 * maxEffMarginW tmpl

/-- Modelled from the spec: gross production height. -/
def grossHeight (h : ℚ) (tmpl : Template) : ℚ := h + 2 * maxEffMarginH tmpl

/-- Modelled from the spec (§4.1): `overlapUsed` is the request override if
present and non-negative, else the template default. -/
def resolveOverlap (ovr : Option ℚ) (dflt : ℚ) : ℚ :=
  match ovr with
  | some o => if 0 ≤ o then o else dflt
  | none => dflt

/-! ## Material Selector, Best-Fit (modelled from the spec, §4.2) -/

/-- Width used as deterministic sort/selection key; an unconstrained
(`none`) width sorts as 0. -/
def sortWidth (v : MaterialVariant) : ℚ := v.width_cm.getD 0

/-- Modelled from the spec: a variant fits a required gross width when its
roll width is at least that wide; an unconstrained width always fits. -/
def fitsB (req : ℚ) (v : MaterialVariant) : Bool :=
  match v.width_cm with
  | some w => decide (req ≤ w)
  | none => true

/-- Modelled from the spec: the cost metric is `cost_price_per_unit`
normalized per unit (roll width does not change unit cost). -/
def costMetric (v : MaterialVariant) : ℚ := v.cost_price_per_unit

/-- Strict lexicographic comparison on (cost metric, width): lower cost wins,
then narrower width. -/
def lexBetter (a b : MaterialVariant) : Bool :=
  decide (costMetric a < costMetric b ∨
    (costMetric a = costMetric b ∧ sortWidth a < sortWidth b))

/-- Returns `true` when `a` is strictly wider than `b`. -/
def widerB (a b : MaterialVariant) : Bool := decide (sortWidth b < sortWidth a)

/-- Generic left fold keeping the element preferred by `f` (the earlier
element is kept on a tie, matching deterministic selection). -/
def pickFold {α : Type} (f : α → α → Bool) (l : List α) : Option α :=
  match l with
  | [] => none
  | h :: t => some (t.foldl (fun best v => if f v best then v else best) h)

/-- Cheapest fitting variant (ties broken by ascending width). -/
def pickBest (l : List MaterialVariant) : Option MaterialVariant :=
  pickFold lexBetter l

/-- Widest variant. -/
def pickWidest (l : List MaterialVariant) : Option MaterialVariant :=
  pickFold widerB l

/-- Modelled from the spec: outcome of the best-fit selection. -/
inductive SelectResult
  | chosen (v : MaterialVariant)
  | splitRequired (panel : MaterialVariant)
deriving DecidableEq, Repr

/-- Modelled from the spec (§4.2): filter to active variants; if some active
variant fits the required gross width pick the cheapest (ties by ascending
width); if none fits signal split-required with the widest active variant;
if no active variant exists at all fail with `ConfigurationError`. -/
def selectBestFit (variants : List MaterialVariant) (req : ℚ) :
    Except CalcError SelectResult :=
  if (variants.filter (·.is_active)).isEmpty then
    .error (.configuration "no active material variants")
  else
    match pickBest ((variants.filter (·.is_active)).filter (fitsB req)) with
    | some v => .ok (.chosen v)
    | none =>
      match pickWidest (variants.filter (·.is_active)) with
      | some w => .ok (.splitRequired w)
      | none => .error (.configuration "no active material variants")

/-! ## Panel Planner (modelled from the spec, §4.3) -/

/-- Modelled from the spec: the panel plan. -/
structure PanelPlan where
  numPanels : ℤ
  totalMaterialConsumed : ℚ
  isSplit : Bool
deriving DecidableEq, Repr, Inhabited

/-- Modelled from the spec (§4.3): `numPanels = ceil((g − o)/(p − o))`,
minimum 1; `totalMaterialConsumed = n·p − (n−1)·o` along the split axis;
`isSplit = numPanels > 1`; fails with `ConfigurationError` when
`panelWidth ≤ overlap`. -/
def plan (grossW panelW overlap : ℚ) : Except CalcError PanelPlan :=
  if panelW ≤ overlap then
    .error (.configuration "panel width must exceed overlap")
  else
    let n : ℤ := max 1 ⌈(grossW - overlap) / (panelW - overlap)⌉
    .ok { numPanels := n
          totalMaterialConsumed := (n : ℚ) * panelW - ((n : ℚ) - 1) * overlap
          isSplit := decide (1 < n) }

/-! ## Rounding policy (spec §4.4 / §6): round-half-up, applied once per
finalized output value (2 fraction digits for currency, 1 for the margin). -/

/-- Round half-up to 2 decimal places. -/
def round2 (x : ℚ) : ℚ := ((⌊x * 100 + 1 / 2⌋ : ℤ) : ℚ) / 100

/-- Round half-up to 1 decimal place. -/
def round1 (x : ℚ) : ℚ := ((⌊x * 10 + 1 / 2⌋ : ℤ) : ℚ) / 10

/-! ## Cost Aggregator (modelled from the spec, §4.4) -/

/-- Modelled from the spec: the single material pick driving splitting, made
by the Material Selector / Panel Planner stage. -/
inductive MaterialPick
  | single (v : MaterialVariant)
  | split (v : MaterialVariant) (pl : PanelPlan)
deriving DecidableEq, Repr

/-- Output of the stages preceding the Cost Aggregator. -/
structure CoreData where
  grossW : ℚ
  grossH : ℚ
  overlapUsed : ℚ
  pick : MaterialPick
deriving DecidableEq, Repr

/-- Material consumption along the split axis: `totalMaterialConsumed` when
split, else the single-panel gross width (spec §4.4). -/
def effSplitWidth (core : CoreData) : ℚ :=
  match core.pick with
  | .single _ => core.grossW
  | .split _ pl => pl.totalMaterialConsumed

/-- The variant chosen by the selector (the panel-width candidate when
split). -/
def chosenVariant (core : CoreData) : MaterialVariant :=
  match core.pick with
  | .single v => v
  | .split v _ => v

/-- The `numPanels` reported for the whole calculation: 1 when a single variant
fits, the plan's count when split. -/
def numPanelsOut (core : CoreData) : ℤ :=
  match core.pick with
  | .single _ => 1
  | .split _ pl => pl.numPanels

/-- The `is_split` flag reported for the whole calculation. -/
def isSplitOut (core : CoreData) : Bool :=
  match core.pick with
  | .single _ => false
  | .split _ pl => pl.isSplit

/-- Modelled from the spec: per-piece material consumption by unit: gross
area for area units, split-axis length for linear units, one per piece. -/
def materialPerPiece (core : CoreData) (v : MaterialVariant) : ℚ :=
  match v.unit with
  | .m2 => effSplitWidth core * core.grossH
  | .mb => effSplitWidth core
  | .pcs => 1

/-- Modelled from the spec: one engine-internal line item (§3,
`ComponentLineItem`). -/
structure LineItem where
  isMaterial : Bool
  consumedQty : ℚ
  cost : ℚ
  price : ℚ
deriving DecidableEq, Repr, Inhabited

/-- Modelled from the spec (§4.4): price one component.  Material line:
consumed = per-piece consumption × quantity, `cost = consumed × cppu`,
`price = cost × (1 + markup/100)`.  Process line: consumed by method (AREA →
gross area, LINEAR → the longer gross dimension, TIME → catalog duration,
UNIT → the quantity itself); `price = consumed × unit_price + setup_fee`;
`cost` uses `internal_cost` when set, else equals the price. -/
def lineFor (core : CoreData) (q : ℕ) (c : CompRef) : LineItem :=
  match c with
  | .material _ =>
    let v := chosenVariant core
    let consumed := materialPerPiece core v * (q : ℚ)
    let cost := consumed * v.cost_price_per_unit
    { isMaterial := true
      consumedQty := consumed
      cost := cost
      price := cost * (1 + v.markup_percentage / 100) }
  | .process p =>
    let consumed :=
      match p.method with
      | .AREA => core.grossW * core.grossH
      | .LINEAR => max core.grossW core.grossH
      | .TIME => p.time_qty
      | .UNIT => (q : ℚ)
    let price := consumed * p.unit_price + p.setup_fee
    { isMaterial := false
      consumedQty := consumed
      cost :=
        match p.internal_cost with
        | some ic => consumed * ic + p.setup_fee
        | none => price
      price := price }

/-- The components included in the aggregation: every required component and
every optional component whose id is selected (spec §4.4). -/
def includedComps (tmpl : Template) (sel : List Nat) : List TemplateComponent :=
  tmpl.components.filter (fun c => c.is_required || sel.contains c.id)

/-- All line items of one calculation. -/
def lineItems (core : CoreData) (q : ℕ) (tmpl : Template) (sel : List Nat) :
    List LineItem :=
  (includedComps tmpl sel).map (fun c => lineFor core q c.ref)

/-- Total COGS, accumulated over the line items. -/
def totalCost (ls : List LineItem) : ℚ := ls.foldl (fun a l => a + l.cost) 0

/-- Total net price, accumulated over the line items. -/
def totalPrice (ls : List LineItem) : ℚ := ls.foldl (fun a l => a + l.price) 0

/-! ## The full calculation (modelled from the spec, §2 control flow) -/

/-- Modelled from the spec: the calculation result (spec §3/§6). -/
structure CalculationResult where
  total_price_net : ℚ
  total_cost_cogs : ℚ
  margin_percentage : ℚ
  gross_w : ℚ
  gross_h : ℚ
  is_split : Bool
  num_panels : ℤ
  overlap_used : ℚ
  lineItems : List LineItem
deriving DecidableEq, Repr, Inhabited

/-- Returns `true` when the override is present and negative. -/
def negOverride : Option ℚ → Bool
  | some o => decide (o < 0)
  | none => false

/-- The ids of the template's optional components. -/
def optionalIds (tmpl : Template) : List Nat :=
  (tmpl.components.filter (fun c => !c.is_required)).map (·.id)

/-- Modelled from the spec (§7): input validation — positive net dimensions
and quantity, non-negative overlap override, known selected-option ids. -/
def validate (req : CalcRequest) (tmpl : Template) : Except CalcError Unit :=
  if req.width_cm ≤ 0 ∨ req.height_cm ≤ 0 then
    .error (.validation "net width and height must be positive")
  else if req.quantity = 0 then
    .error (.validation "quantity must be positive")
  else if negOverride req.overlap_override then
    .error (.validation "overlap override must be non-negative")
  else if req.selected_options.all (fun i => (optionalIds tmpl).contains i) then
    .ok ()
  else
    .error (.validation "unknown selected option id")

/-- The variant pool used by the Material Selector: the variants of the first
required material component (the spec's control flow invokes the selector
once per calculation). -/
def firstMaterialPool (tmpl : Template) : Option (List MaterialVariant) :=
  ((requiredComps tmpl).filterMap fun c =>
    match c.ref with
    | .material vs => some vs
    | .process _ => none).head?

/-- Modelled from the spec: Margin Resolver → Material Selector → Panel
Planner, producing the data the Cost Aggregator consumes.  The quantity does
not enter this part of the pipeline. -/
def calcCore (w h : ℚ) (ovr : Option ℚ) (tmpl : Template) :
    Except CalcError CoreData :=
  match firstMaterialPool tmpl with
  | none => .error (.configuration "template has no required material component")
  | some pool =>
    match selectBestFit pool (grossWidth w tmpl) with
    | .error e => .error e
    | .ok (.chosen v) =>
      .ok ⟨grossWidth w tmpl, grossHeight h tmpl,
        resolveOverlap ovr tmpl.default_overlap_cm, .single v⟩
    | .ok (.splitRequired wv) =>
      match plan (grossWidth w tmpl) (sortWidth wv)
          (resolveOverlap ovr tmpl.default_overlap_cm) with
      | .error e => .error e
      | .ok pl =>
        .ok ⟨grossWidth w tmpl, grossHeight h tmpl,
          resolveOverlap ovr tmpl.default_overlap_cm, .split wv pl⟩

/-- Aggregate line items into the final result; the totals are finalized with
one half-up rounding each, and the margin percentage is derived from the
finalized totals (reported as 0 when the net total price is 0). -/
def mkResult (core : CoreData) (q : ℕ) (tmpl : Template) (sel : List Nat) :
    CalculationResult :=
  let ls := lineItems core q tmpl sel
  let price := round2 (totalPrice ls)
  let cost := round2 (totalCost ls)
  { total_price_net := price
    total_cost_cogs := cost
    margin_percentage := if price = 0 then 0 else round1 ((price - cost) / price * 100)
    gross_w := core.grossW
    gross_h := core.grossH
    is_split := isSplitOut core
    num_panels := numPanelsOut core
    overlap_used := core.overlapUsed
    lineItems := ls }

/-- Modelled from the spec: one full calculation invocation. -/
def calculate (req : CalcRequest) (tmpl : Template) :
    Except CalcError CalculationResult :=
  match validate req tmpl with
  | .error e => .error e
  | .ok _ =>
    match calcCore req.width_cm req.height_cm req.overlap_override tmpl with
    | .error e => .error e
    | .ok core => .ok (mkResult core req.quantity tmpl req.selected_options)

/-! ## Frontend (translated from the TypeScript source under `src/`) -/

/-- The calculator page state touched by `handleCalculate`
(`src/frontend/next.config.js`, `Calculator`). -/
structure UiState where
  result : Option CalculationResult
  error : Option String
  loading : Bool
deriving DecidableEq, Repr, Inhabited

/-- Function `handleCalculate` (`src/frontend/next.config.js`, lines 152–178): on a
successful response the result is stored (the error having been cleared at
the start); on a failed response only the error message is set — `setResult`
is not called.  `loading` is reset in the `finally` block. -/
def handleCalculate (prev : UiState) (resp : Except String CalculationResult) :
    UiState :=
  match resp with
  | .ok r => { result := some r, error := none, loading := false }
  | .error e => { result := prev.result, error := some e, loading := false }

/-- The `overlap_override_cm` payload field of `handleCalculate`
(`src/frontend/next.config.js`, lines 167–169): included only when the
overlap input string is truthy, i.e. non-empty; `parse` stands for JS
`parseFloat`. -/
def mkOverlapField (s : String) (parse : String → ℚ) : Option ℚ :=
  if s = "" then none else some (parse s)

/-- Function `handleOptionToggle` (`src/frontend/next.config.js`, lines 143–150):
remove every occurrence of the id when present, append it when absent. -/
def handleOptionToggle (prev : List Nat) (optionId : Nat) : List Nat :=
  if prev.contains optionId then
    prev.filter (fun id => id ≠ optionId)
  else
    prev ++ [optionId]

/-- Component type selector in the template editor
(`src/unnamed/part_001`, `TemplateModal`): `'material' | 'process'`. -/
inductive CompKind
  | material
  | process
deriving DecidableEq, Repr

/-- A component row of the template editor's local state
(`src/unnamed/part_001`, `TemplateModal`). -/
structure EditorComponent where
  kind : CompKind
  refId : Nat
  isRequired : Bool
  sortOrder : Int
deriving DecidableEq, Repr

/-- A component entry of the payload the template editor submits
(`src/unnamed/part_001`, lines 666–671). -/
structure ComponentPayload where
  material_id : Option Nat
  process_id : Option Nat
  is_required : Bool
  sort_order : Int
deriving DecidableEq, Repr

/-- The component payload built by `TemplateModal.handleSubmit`
(`src/unnamed/part_001`, lines 666–671): `material_id` is set exactly for
material rows, `process_id` exactly for process rows. -/
def buildComponentPayload (c : EditorComponent) : ComponentPayload :=
  { material_id := if c.kind = .material then some c.refId else none
    process_id := if c.kind = .process then some c.refId else none
    is_required := c.isRequired
    sort_order := c.sortOrder }

/-! ## Further definitions used by the verification -/

/-- Non-strict lexicographic order on (cost metric, width). -/
def lexLe (a b : MaterialVariant) : Prop :=
  costMetric a < costMetric b ∨
    (costMetric a = costMetric b ∧ sortWidth a ≤ sortWidth b)

/-- The catalog invariants this spec states or the admin UI enforces:
non-negative default overlap, variant cost/markup/width, and process unit
price. -/
def wellFormedB (tmpl : Template) : Bool :=
  decide (0 ≤ tmpl.default_overlap_cm) &&
  tmpl.components.all fun c =>
    match c.ref with
    | .material vs => vs.all fun v =>
        decide (0 ≤ v.cost_price_per_unit) && decide (0 ≤ v.markup_percentage)
          && decide (0 ≤ sortWidth v)
    | .process p => decide (0 ≤ p.unit_price)

/-! ## Concrete catalog fixtures (following the spec §8 scenarios) -/

/-- Scenario A variant: width 300, cost 20, markup 50%. -/
def varA : MaterialVariant := ⟨some 300, none, 20, 50, .m2, 0, 0, true⟩

/-- Scenario B variant: width 137, cost 20, markup 50%. -/
def varB : MaterialVariant := ⟨some 137, none, 20, 50, .m2, 0, 0, true⟩

/-- A required AREA process (CNC cutting). -/
def procCNC : Process := ⟨.AREA, 5, 10, none, 0, 0, 0, true⟩

/-- An optional UNIT process (lamination) with a declared internal cost. -/
def procLam : Process := ⟨.UNIT, 3, 0, some 2, 0, 0, 0, true⟩

/-- Scenario A template: margins 0.5/0.5, overlap 1, one required material,
one required process, one optional process. -/
def tmplA : Template :=
  ⟨1/2, 1/2, 1, [⟨1, .material [varA], true, 0⟩, ⟨2, .process procCNC, true, 1⟩,
    ⟨3, .process procLam, false, 2⟩]⟩

/-- Scenario B template: as A but the material roll is only 137 wide. -/
def tmplB : Template :=
  ⟨1/2, 1/2, 1, [⟨1, .material [varB], true, 0⟩, ⟨2, .process procCNC, true, 1⟩]⟩

/-- Scenario D template: zero default margins, no component overrides. -/
def tmplD : Template := ⟨0, 0, 1, [⟨1, .material [varA], true, 0⟩]⟩

/-- Scenario A request with a chosen quantity. -/
def reqA (q : ℕ) : CalcRequest := ⟨100, 100, q, [], none⟩

/-- Scenario B request: 200 × 120. -/
def reqB : CalcRequest := ⟨200, 120, 1, [], none⟩

/-- Scenario D request. -/
def reqD : CalcRequest := ⟨100, 100, 1, [], none⟩

/-- An invalid request (zero net width). -/
def reqBad : CalcRequest := ⟨0, 100, 1, [], none⟩

/-- A request carrying an overlap override. -/
def reqOv : CalcRequest := ⟨100, 100, 1, [], some 2⟩

/-- A narrow cheap variant for the tie-break fixture. -/
def vNarrow : MaterialVariant := ⟨some 150, none, 10, 0, .m2, 0, 0, true⟩

/-- A wide variant with the same cost metric as `vNarrow`. -/
def vWide : MaterialVariant := ⟨some 200, none, 10, 0, .m2, 0, 0, true⟩

/-- The result of Scenario A at quantity 1. -/
def resA1 : CalculationResult :=
  ⟨357045, 255035, 143/5, 101, 101, false, 1, 1,
    [⟨true, 10201, 204020, 306030⟩, ⟨false, 10201, 51015, 51015⟩]⟩

/-- The result of Scenario A at quantity 2. -/
def resA2 : CalculationResult :=
  ⟨663075, 459055, 154/5, 101, 101, false, 1, 1,
    [⟨true, 20402, 408040, 612060⟩, ⟨false, 10201, 51015, 51015⟩]⟩

/-- The result of Scenario D. -/
def resD : CalculationResult :=
  ⟨300000, 200000, 333/10, 100, 100, false, 1, 1,
    [⟨true, 10000, 200000, 300000⟩]⟩

/-- The result of the override request against the Scenario A template. -/
def resOv : CalculationResult :=
  ⟨357045, 255035, 143/5, 101, 101, false, 1, 2,
    [⟨true, 10201, 204020, 306030⟩, ⟨false, 10201, 51015, 51015⟩]⟩

/-- The result of Scenario B (split). -/
def resB : CalculationResult :=
  ⟨1112605, 782275, 297/10, 201, 121, true, 2, 1,
    [⟨true, 33033, 660660, 990990⟩, ⟨false, 24321, 121615, 121615⟩]⟩

/-! ## Generic lemmas about the fold-based picker -/

theorem pickFold_go_mem {α : Type} (f : α → α → Bool) :
    ∀ (t : List α) (b : α),
      t.foldl (fun best v => if f v best then v else best) b ∈ b :: t := by
  intro t
  induction t with
  | nil => intro b; simp
  | cons v t ih =>
    intro b
    simp only [List.foldl_cons]
    by_cases hf : f v b
    · rw [if_pos hf]
      rcases List.mem_cons.1 (ih v) with h | h
      · rw [h]; exact List.mem_cons_of_mem _ (List.mem_cons_self _ _)
      · exact List.mem_cons_of_mem _ (List.mem_cons_of_mem _ h)
    · rw [if_neg hf]
      rcases List.mem_cons.1 (ih b) with h | h
      · rw [h]; exact List.mem_cons_self _ _
      · exact List.mem_cons_of_mem _ (List.mem_cons_of_mem _ h)

theorem pickFold_go_le {α : Type} (f : α → α → Bool) (r : α → α → Prop)
    (hrefl : ∀ a, r a a) (htrans : ∀ a b c, r a b → r b c → r a c)
    (ht : ∀ a b, f a b = true → r a b) (hf : ∀ a b, f a b = false → r b a) :
    ∀ (t : List α) (b x : α), x ∈ b :: t →
      r (t.foldl (fun best v => if f v best then v else best) b) x := by
  intro t
  induction t with
  | nil =>
    intro b x hx
    rcases List.mem_cons.1 hx with h | h
    · subst h; exact hrefl x
    · cases h
  | cons v t ih =>
    intro b x hx
    simp only [List.foldl_cons]
    have hb : r (if f v b then v else b) b ∧ r (if f v b then v else b) v := by
      by_cases hfv : f v b
      · simp only [hfv, if_true]
        exact ⟨ht v b hfv, hrefl v⟩
      · simp only [hfv, if_false]
        exact ⟨hrefl b, hf v b (Bool.eq_false_iff.2 hfv ▸ rfl)⟩
    have hhead := ih (if f v b then v else b) (if f v b then v else b)
      (List.mem_cons_self _ _)
    rcases List.mem_cons.1 hx with h | h
    · subst h; exact htrans _ _ _ hhead hb.1
    rcases List.mem_cons.1 h with h2 | h2
    · subst h2; exact htrans _ _ _ hhead hb.2
    · exact ih _ x (List.mem_cons_of_mem _ h2)

theorem pickFold_mem {α : Type} (f : α → α → Bool) (l : List α) (res : α)
    (h : pickFold f l = some res) : res ∈ l := by
  cases l with
  | nil => simp [pickFold] at h
  | cons a t =>
    simp only [pickFold, Option.some.injEq] at h
    exact h ▸ pickFold_go_mem f t a

theorem pickFold_eq_none {α : Type} (f : α → α → Bool) (l : List α)
    (h : pickFold f l = none) : l = [] := by
  cases l with
  | nil => rfl
  | cons a t => simp [pickFold] at h

theorem pickFold_isSome {α : Type} (f : α → α → Bool) (l : List α)
    (h : l ≠ []) : ∃ res, pickFold f l = some res := by
  cases l with
  | nil => exact absurd rfl h
  | cons a t => exact ⟨_, rfl⟩

/-! ## Lexicographic order facts -/

theorem lexLe_refl (a : MaterialVariant) : lexLe a a := Or.inr ⟨rfl, le_refl _⟩

theorem lexLe_trans (a b c : MaterialVariant) (h1 : lexLe a b) (h2 : lexLe b c) :
    lexLe a c := by
  rcases h1 with h1 | ⟨h1, h1w⟩ <;> rcases h2 with h2 | ⟨h2, h2w⟩
  · exact Or.inl (lt_trans h1 h2)
  · exact Or.inl (h2 ▸ h1)
  · exact Or.inl (h1 ▸ h2)
  · exact Or.inr ⟨h1.trans h2, le_trans h1w h2w⟩

theorem lexBetter_true {a b : MaterialVariant} (h : lexBetter a b = true) :
    lexLe a b := by
  have h' := of_decide_eq_true h
  rcases h' with h' | ⟨h1, h2⟩
  · exact Or.inl h'
  · exact Or.inr ⟨h1, le_of_lt h2⟩

theorem lexBetter_false {a b : MaterialVariant} (h : lexBetter a b = false) :
    lexLe b a := by
  have h' := of_decide_eq_false h
  push_neg at h'
  rcases lt_trichotomy (costMetric a) (costMetric b) with hlt | heq | hgt
  · exact absurd hlt (not_lt.2 h'.1)
  · exact Or.inr ⟨heq.symm, h'.2 heq⟩
  · exact Or.inl hgt

theorem pickBest_min (l : List MaterialVariant) (res : MaterialVariant)
    (h : pickBest l = some res) : ∀ x ∈ l, lexLe res x := by
  intro x hx
  cases l with
  | nil => cases hx
  | cons a t =>
    simp only [pickBest, pickFold, Option.some.injEq] at h
    subst h
    exact pickFold_go_le lexBetter lexLe lexLe_refl lexLe_trans
      (fun a b => lexBetter_true) (fun a b => lexBetter_false) t a x hx

/-! ## Panel Planner lemmas -/

theorem plan_ok_inv {g p o : ℚ} {pl : PanelPlan} (h : plan g p o = .ok pl) :
    o < p ∧ pl.numPanels = max 1 ⌈(g - o) / (p - o)⌉ ∧
      pl.totalMaterialConsumed =
        (pl.numPanels : ℚ) * p - ((pl.numPanels : ℚ) - 1) * o ∧
      pl.isSplit = decide (1 < pl.numPanels) := by
  unfold plan at h
  split at h
  · cases h
  · next hop =>
    cases h
    exact ⟨lt_of_not_le hop, rfl, rfl, rfl⟩

theorem plan_error {g p o : ℚ} (h : p ≤ o) :
    plan g p o = .error (.configuration "panel width must exceed overlap") := by
  unfold plan
  simp [h]

/-! ## Material Selector lemmas -/

theorem selectBestFit_chosen_inv {vs : List MaterialVariant} {g : ℚ}
    {v : MaterialVariant} (h : selectBestFit vs g = .ok (.chosen v)) :
    v ∈ vs ∧ v.is_active = true ∧ fitsB g v = true ∧
      ∀ u ∈ vs, u.is_active = true → fitsB g u = true → lexLe v u := by
  unfold selectBestFit at h
  split at h
  · cases h
  · split at h
    · next v' hp =>
      have hv : v' = v := by
        injection h with h2
        injection h2
      subst hv
      have hmem := pickFold_mem _ _ _ hp
      have hmin := pickBest_min _ _ hp
      have h1 := List.mem_filter.1 hmem
      have h2 := List.mem_filter.1 h1.1
      refine ⟨h2.1, h2.2, h1.2, ?_⟩
      intro u hu hua huf
      exact hmin u (List.mem_filter.2 ⟨List.mem_filter.2 ⟨hu, hua⟩, huf⟩)
    · split at h
      · injection h with h2
        cases h2
      · cases h

theorem selectBestFit_split_inv {vs : List MaterialVariant} {g : ℚ}
    {wv : MaterialVariant} (h : selectBestFit vs g = .ok (.splitRequired wv)) :
    wv ∈ vs ∧ wv.is_active = true ∧
      (vs.filter (·.is_active)).filter (fitsB g) = [] := by
  unfold selectBestFit at h
  split at h
  · cases h
  · split at h
    · injection h with h2
      cases h2
    · next hp =>
      have hfits := pickFold_eq_none _ _ hp
      split at h
      · next w hw =>
        have hwv : w = wv := by
          injection h with h2
          injection h2
        subst hwv
        have hmem := pickFold_mem _ _ _ hw
        have h1 := List.mem_filter.1 hmem
        exact ⟨h1.1, h1.2, hfits⟩
      · cases h

/-! ## Claim C1 -/

/-- Claim C1, counterexample: with grossWidth = 1/2, panelWidth = 2,
overlap = 1 (so panelWidth > overlap), the planner returns numPanels = 1,
while ceil((grossWidth − overlap)/(panelWidth − overlap)) = 0, so the
returned numPanels does not equal that ceiling. -/
theorem claim_C1_counterexample :
    (plan (1/2) 2 1).map (fun pl => pl.numPanels) = .ok 1 ∧
      ⌈(((1:ℚ)/2) - 1) / (2 - 1)⌉ = 0 := by
  have hc : ⌈-((1:ℚ)/2)⌉ = 0 := by
    rw [Int.ceil_eq_iff]
    norm_num
  constructor
  · norm_num [plan, Except.map, hc, max_def]
  · rw [Int.ceil_eq_iff]
    norm_num

/-- Claim C1 (amended): for panelWidth > overlap, the returned numPanels is
max(1, ceil((grossWidth − overlap)/(panelWidth − overlap))) — in particular
it equals the ceiling whenever grossWidth > overlap, which covers every
pipeline invocation — it is at least 1, and totalMaterialConsumed equals
numPanels × panelWidth − (numPanels − 1) × overlap; at
(201, 137, 1) this gives numPanels = 2 and totalMaterialConsumed = 273. -/
theorem claim_C1_amended (g p o : ℚ) (pl : PanelPlan) (hop : o < p)
    (h : plan g p o = .ok pl) :
    pl.numPanels = max 1 ⌈(g - o) / (p - o)⌉ ∧ 1 ≤ pl.numPanels ∧
      (o < g → pl.numPanels = ⌈(g - o) / (p - o)⌉) ∧
      pl.totalMaterialConsumed =
        (pl.numPanels : ℚ) * p - ((pl.numPanels : ℚ) - 1) * o := by
  obtain ⟨-, hn, hcons, -⟩ := plan_ok_inv h
  refine ⟨hn, ?_, ?_, hcons⟩
  · rw [hn]
    exact le_max_left _ _
  · intro hog
    rw [hn]
    have hpos : (0:ℚ) < (g - o) / (p - o) := div_pos (by linarith) (by linarith)
    have h1 : (0:ℤ) < ⌈(g - o) / (p - o)⌉ := Int.lt_ceil.2 (by push_cast; exact hpos)
    exact max_eq_right (by omega)

/-- Witness for C1 (amended) at the spec's Scenario B numbers. -/
theorem claim_C1_witness :
    (1:ℚ) < 137 ∧
      ((⟨2, 273, true⟩ : PanelPlan).numPanels =
          max 1 ⌈((201:ℚ) - 1) / (137 - 1)⌉ ∧
        1 ≤ (⟨2, 273, true⟩ : PanelPlan).numPanels ∧
        ((1:ℚ) < 201 → (⟨2, 273, true⟩ : PanelPlan).numPanels =
          ⌈((201:ℚ) - 1) / (137 - 1)⌉) ∧
        (⟨2, 273, true⟩ : PanelPlan).totalMaterialConsumed =
          (((⟨2, 273, true⟩ : PanelPlan).numPanels : ℤ) : ℚ) * 137 -
            ((((⟨2, 273, true⟩ : PanelPlan).numPanels : ℤ) : ℚ) - 1) * 1) := by
  have hc : ⌈(25:ℚ)/17⌉ = 2 := by
    rw [Int.ceil_eq_iff]
    norm_num
  refine ⟨by norm_num, claim_C1_amended 201 137 1 ⟨2, 273, true⟩ (by norm_num) ?_⟩
  norm_num [plan, hc, max_def]

/-! ## Claim C2 -/

/-- Claim C2: whenever some active variant fits the required gross width,
`selectBestFit` returns a fitting active variant whose cost metric is
minimal among all fitting active variants, and on cost ties its width is
minimal. -/
theorem claim_C2 (vs : List MaterialVariant) (g : ℚ)
    (hex : ∃ u ∈ vs, u.is_active = true ∧ fitsB g u = true) :
    ∃ v, selectBestFit vs g = .ok (.chosen v) ∧ v ∈ vs ∧ v.is_active = true ∧
      fitsB g v = true ∧
      (∀ u ∈ vs, u.is_active = true → fitsB g u = true →
        costMetric v ≤ costMetric u) ∧
      (∀ u ∈ vs, u.is_active = true → fitsB g u = true →
        costMetric u = costMetric v → sortWidth v ≤ sortWidth u) := by
  obtain ⟨u, hu, hua, huf⟩ := hex
  have hufits : u ∈ (vs.filter (·.is_active)).filter (fitsB g) :=
    List.mem_filter.2 ⟨List.mem_filter.2 ⟨hu, hua⟩, huf⟩
  have hne : (vs.filter (·.is_active)).filter (fitsB g) ≠ [] := by
    intro hnil
    rw [hnil] at hufits
    cases hufits
  obtain ⟨r, hr⟩ := pickFold_isSome lexBetter _ hne
  have hsel : selectBestFit vs g = .ok (.chosen r) := by
    unfold selectBestFit
    have hact : (vs.filter (·.is_active)).isEmpty = false := by
      cases hl : vs.filter (·.is_active) with
      | nil =>
        have := List.mem_filter.2 ⟨hu, hua⟩
        rw [hl] at this
        cases this
      | cons a t => rfl
    rw [if_neg (by simp [hact])]
    rw [show pickBest ((vs.filter (·.is_active)).filter (fitsB g)) = some r from hr]
  obtain ⟨hrmem, hract, hrfit, hrmin⟩ := selectBestFit_chosen_inv hsel
  refine ⟨r, hsel, hrmem, hract, hrfit, ?_, ?_⟩
  · intro w hw hwa hwf
    rcases hrmin w hw hwa hwf with hlt | ⟨heq, -⟩
    · exact le_of_lt hlt
    · exact le_of_eq heq
  · intro w hw hwa hwf heq
    rcases hrmin w hw hwa hwf with hlt | ⟨-, hle⟩
    · exact absurd (heq ▸ hlt) (lt_irrefl _)
    · exact hle

/-- Witness for C2: two active fitting variants with equal cost metric;
the narrower one (width 150) must be selected. -/
theorem claim_C2_witness :
    ∃ v, selectBestFit [vWide, vNarrow] 100 = .ok (.chosen v) ∧
      v ∈ [vWide, vNarrow] ∧ v.is_active = true ∧ fitsB 100 v = true ∧
      (∀ u ∈ [vWide, vNarrow], u.is_active = true → fitsB 100 u = true →
        costMetric v ≤ costMetric u) ∧
      (∀ u ∈ [vWide, vNarrow], u.is_active = true → fitsB 100 u = true →
        costMetric u = costMetric v → sortWidth v ≤ sortWidth u) :=
  claim_C2 [vWide, vNarrow] 100
    ⟨vWide, by simp, by norm_num [vWide], by norm_num [vWide, fitsB]⟩

/-! ## Rounding, sums, and fold-max lemmas -/

theorem round2_mono {x y : ℚ} (h : x ≤ y) : round2 x ≤ round2 y := by
  unfold round2
  have hf : (⌊x * 100 + 1 / 2⌋ : ℤ) ≤ ⌊y * 100 + 1 / 2⌋ :=
    Int.floor_mono (by linarith)
  have hc : ((⌊x * 100 + 1 / 2⌋ : ℤ) : ℚ) ≤ ((⌊y * 100 + 1 / 2⌋ : ℤ) : ℚ) := by
    exact_mod_cast hf
  linarith

theorem foldl_add_map {α : Type} (f : α → ℚ) :
    ∀ (l : List α) (a : ℚ),
      l.foldl (fun acc x => acc + f x) a = a + (l.map f).sum := by
  intro l
  induction l with
  | nil => intro a; simp
  | cons x t ih =>
    intro a
    simp only [List.foldl_cons, List.map_cons, List.sum_cons, ih]
    ring

theorem totalCost_eq_sum (ls : List LineItem) :
    totalCost ls = (ls.map (·.cost)).sum := by
  unfold totalCost
  rw [foldl_add_map]
  ring

theorem totalPrice_eq_sum (ls : List LineItem) :
    totalPrice ls = (ls.map (·.price)).sum := by
  unfold totalPrice
  rw [foldl_add_map]
  ring

theorem foldl_max_le_init : ∀ (l : List ℚ) (a : ℚ),
    (∀ x ∈ l, x ≤ a) → l.foldl max a = a := by
  intro l
  induction l with
  | nil => intro a _; rfl
  | cons x t ih =>
    intro a hx
    simp only [List.foldl_cons]
    rw [max_eq_left (hx x (List.mem_cons_self _ _))]
    exact ih a fun y hy => hx y (List.mem_cons_of_mem _ hy)

theorem foldl_max_init_le : ∀ (l : List ℚ) (a : ℚ), a ≤ l.foldl max a := by
  intro l
  induction l with
  | nil => intro a; exact le_refl a
  | cons x t ih =>
    intro a
    simp only [List.foldl_cons]
    exact le_trans (le_max_left a x) (ih (max a x))

theorem maxEffMarginW_nonneg (tmpl : Template) : 0 ≤ maxEffMarginW tmpl :=
  foldl_max_init_le _ 0

theorem maxEffMarginH_nonneg (tmpl : Template) : 0 ≤ maxEffMarginH tmpl :=
  foldl_max_init_le _ 0

theorem resolveOverlap_nonneg {ovr : Option ℚ} {dflt : ℚ} (hd : 0 ≤ dflt) :
    0 ≤ resolveOverlap ovr dflt := by
  cases ovr with
  | none => exact hd
  | some o =>
    show 0 ≤ (if 0 ≤ o then o else dflt)
    by_cases ho : 0 ≤ o
    · rw [if_pos ho]; exact ho
    · rw [if_neg ho]; exact hd

/-! ## Pipeline inversion lemmas -/

theorem mkResult_spec (core : CoreData) (q : ℕ) (tmpl : Template)
    (sel : List Nat) :
    (mkResult core q tmpl sel).total_price_net =
        round2 (totalPrice (lineItems core q tmpl sel)) ∧
      (mkResult core q tmpl sel).total_cost_cogs =
        round2 (totalCost (lineItems core q tmpl sel)) ∧
      (mkResult core q tmpl sel).margin_percentage =
        (if round2 (totalPrice (lineItems core q tmpl sel)) = 0 then 0
          else round1 ((round2 (totalPrice (lineItems core q tmpl sel)) -
            round2 (totalCost (lineItems core q tmpl sel))) /
              round2 (totalPrice (lineItems core q tmpl sel)) * 100)) ∧
      (mkResult core q tmpl sel).gross_w = core.grossW ∧
      (mkResult core q tmpl sel).gross_h = core.grossH ∧
      (mkResult core q tmpl sel).is_split = isSplitOut core ∧
      (mkResult core q tmpl sel).num_panels = numPanelsOut core ∧
      (mkResult core q tmpl sel).overlap_used = core.overlapUsed ∧
      (mkResult core q tmpl sel).lineItems = lineItems core q tmpl sel :=
  ⟨rfl, rfl, rfl, rfl, rfl, rfl, rfl, rfl, rfl⟩

theorem calculate_ok_inv {req : CalcRequest} {tmpl : Template}
    {r : CalculationResult} (h : calculate req tmpl = .ok r) :
    validate req tmpl = .ok () ∧
      ∃ core,
        calcCore req.width_cm req.height_cm req.overlap_override tmpl = .ok core ∧
        r = mkResult core req.quantity tmpl req.selected_options := by
  unfold calculate at h
  split at h
  · cases h
  · next u hv =>
    split at h
    · cases h
    · next core hc =>
      injection h with h2
      exact ⟨by rw [hv], core, hc, h2.symm⟩

theorem calcCore_ok_inv {w h : ℚ} {ovr : Option ℚ} {tmpl : Template}
    {core : CoreData}
    (hc : calcCore w h ovr tmpl = .ok core) :
    core.grossW = grossWidth w tmpl ∧ core.grossH = grossHeight h tmpl ∧
      core.overlapUsed = resolveOverlap ovr tmpl.default_overlap_cm ∧
      ∃ pool, firstMaterialPool tmpl = some pool ∧
        ((∃ v, selectBestFit pool (grossWidth w tmpl) = .ok (.chosen v) ∧
            core.pick = .single v) ∨
          (∃ wv pl,
            selectBestFit pool (grossWidth w tmpl) = .ok (.splitRequired wv) ∧
            plan (grossWidth w tmpl) (sortWidth wv)
              (resolveOverlap ovr tmpl.default_overlap_cm) = .ok pl ∧
            core.pick = .split wv pl)) := by
  unfold calcCore at hc
  split at hc
  · cases hc
  · next pool hpool =>
    split at hc
    · cases hc
    · next v hsel =>
      cases hc
      exact ⟨rfl, rfl, rfl, pool, hpool, Or.inl ⟨v, hsel, rfl⟩⟩
    · next wv hsel =>
      split at hc
      · cases hc
      · next pl hpl =>
        cases hc
        exact ⟨rfl, rfl, rfl, pool, hpool, Or.inr ⟨wv, pl, hsel, hpl, rfl⟩⟩

theorem validate_ok_inv {req : CalcRequest} {tmpl : Template}
    (h : validate req tmpl = .ok ()) :
    0 < req.width_cm ∧ 0 < req.height_cm ∧ 0 < req.quantity := by
  unfold validate at h
  split at h
  · cases h
  · next hwh =>
    push_neg at hwh
    split at h
    · cases h
    · next hq =>
      exact ⟨hwh.1, hwh.2, Nat.pos_of_ne_zero hq⟩

/-! ## Concrete evaluations of the pipeline (shared by the witnesses) -/

theorem evalA1 : calculate (reqA 1) tmplA = .ok resA1 := by
  norm_num [calculate, validate, reqA, tmplA, varA, procCNC, procLam, resA1, calcCore,
    grossWidth, grossHeight, maxEffMarginW, maxEffMarginH, requiredComps, effMarginW,
    effMarginH, rawMarginW, rawMarginH, resolveOverlap, negOverride, optionalIds,
    firstMaterialPool, selectBestFit, fitsB, pickBest, pickWidest, pickFold, lexBetter,
    widerB, sortWidth, costMetric, plan, mkResult, lineItems, includedComps, lineFor,
    materialPerPiece, effSplitWidth, chosenVariant, numPanelsOut, isSplitOut, totalCost,
    totalPrice, round2, round1, max_def]

theorem evalA2 : calculate (reqA 2) tmplA = .ok resA2 := by
  norm_num [calculate, validate, reqA, tmplA, varA, procCNC, procLam, resA2, calcCore,
    grossWidth, grossHeight, maxEffMarginW, maxEffMarginH, requiredComps, effMarginW,
    effMarginH, rawMarginW, rawMarginH, resolveOverlap, negOverride, optionalIds,
    firstMaterialPool, selectBestFit, fitsB, pickBest, pickWidest, pickFold, lexBetter,
    widerB, sortWidth, costMetric, plan, mkResult, lineItems, includedComps, lineFor,
    materialPerPiece, effSplitWidth, chosenVariant, numPanelsOut, isSplitOut, totalCost,
    totalPrice, round2, round1, max_def]

theorem evalD : calculate reqD tmplD = .ok resD := by
  norm_num [calculate, validate, reqD, tmplD, varA, resD, calcCore,
    grossWidth, grossHeight, maxEffMarginW, maxEffMarginH, requiredComps, effMarginW,
    effMarginH, rawMarginW, rawMarginH, resolveOverlap, negOverride, optionalIds,
    firstMaterialPool, selectBestFit, fitsB, pickBest, pickWidest, pickFold, lexBetter,
    widerB, sortWidth, costMetric, plan, mkResult, lineItems, includedComps, lineFor,
    materialPerPiece, effSplitWidth, chosenVariant, numPanelsOut, isSplitOut, totalCost,
    totalPrice, round2, round1, max_def]

theorem evalOv : calculate reqOv tmplA = .ok resOv := by
  norm_num [calculate, validate, reqOv, tmplA, varA, procCNC, procLam, resOv, calcCore,
    grossWidth, grossHeight, maxEffMarginW, maxEffMarginH, requiredComps, effMarginW,
    effMarginH, rawMarginW, rawMarginH, resolveOverlap, negOverride, optionalIds,
    firstMaterialPool, selectBestFit, fitsB, pickBest, pickWidest, pickFold, lexBetter,
    widerB, sortWidth, costMetric, plan, mkResult, lineItems, includedComps, lineFor,
    materialPerPiece, effSplitWidth, chosenVariant, numPanelsOut, isSplitOut, totalCost,
    totalPrice, round2, round1, max_def]

theorem evalB : calculate reqB tmplB = .ok resB := by
  have hc : (⌈(25:ℚ)/17⌉ : ℤ) = 2 := by
    rw [Int.ceil_eq_iff]
    norm_num
  norm_num [calculate, validate, reqB, tmplB, varB, procCNC, resB, calcCore,
    grossWidth, grossHeight, maxEffMarginW, maxEffMarginH, requiredComps, effMarginW,
    effMarginH, rawMarginW, rawMarginH, resolveOverlap, negOverride, optionalIds,
    firstMaterialPool, selectBestFit, fitsB, pickBest, pickWidest, pickFold, lexBetter,
    widerB, sortWidth, costMetric, plan, mkResult, lineItems, includedComps, lineFor,
    materialPerPiece, effSplitWidth, chosenVariant, numPanelsOut, isSplitOut, totalCost,
    totalPrice, round2, round1, hc, max_def]

theorem evalBad :
    calculate reqBad tmplA =
      .error (.validation "net width and height must be positive") := by
  norm_num [calculate, validate, reqBad]

/-! ## Claim C3 -/

/-- Gross dimensions of a successful calculation. -/
theorem calculate_gross {req : CalcRequest} {tmpl : Template}
    {r : CalculationResult} (h : calculate req tmpl = .ok r) :
    r.gross_w = grossWidth req.width_cm tmpl ∧
      r.gross_h = grossHeight req.height_cm tmpl := by
  obtain ⟨-, core, hcore, hr⟩ := calculate_ok_inv h
  obtain ⟨hgw, hgh, -, -⟩ := calcCore_ok_inv hcore
  subst hr
  exact ⟨hgw, hgh⟩

/-- Claim C3: for a completed calculation, `is_split` is true exactly when no
active variant of the selection pool fits the required gross width, and
exactly when `num_panels > 1`; and the planner's defensive single-panel path
(`grossWidth ≤ panelWidth`) yields numPanels = 1 and isSplit = false. -/
theorem claim_C3 :
    (∀ (req : CalcRequest) (tmpl : Template) (r : CalculationResult)
        (pool : List MaterialVariant),
      calculate req tmpl = .ok r → firstMaterialPool tmpl = some pool →
        ((r.is_split = true ↔
            ¬ ∃ v ∈ pool, v.is_active = true ∧
              fitsB (grossWidth req.width_cm tmpl) v = true) ∧
          (r.is_split = true ↔ 1 < r.num_panels))) ∧
    (∀ (g p o : ℚ) (pl : PanelPlan), plan g p o = .ok pl → g ≤ p →
      pl.numPanels = 1 ∧ pl.isSplit = false) := by
  constructor
  · intro req tmpl r pool h hpool
    obtain ⟨-, core, hcore, hr⟩ := calculate_ok_inv h
    obtain ⟨-, -, -, pool', hpool', hcases⟩ := calcCore_ok_inv hcore
    have hpq : pool' = pool := by
      rw [hpool] at hpool'
      injection hpool' with h2
      exact h2.symm
    rw [hpq] at hcases
    subst hr
    obtain ⟨-, -, -, -, -, hsplit, hnum, -, -⟩ :=
      mkResult_spec core req.quantity tmpl req.selected_options
    rcases hcases with ⟨v, hsel, hpick⟩ | ⟨wv, pl, hsel, hpl, hpick⟩
    · have hs : isSplitOut core = false := by simp [isSplitOut, hpick]
      have hn : numPanelsOut core = 1 := by simp [numPanelsOut, hpick]
      obtain ⟨hvm, hva, hvf, -⟩ := selectBestFit_chosen_inv hsel
      constructor
      · rw [hsplit, hs]
        exact iff_of_false (by simp) (not_not_intro ⟨v, hvm, hva, hvf⟩)
      · rw [hsplit, hs, hnum, hn]
        exact iff_of_false (by simp) (by omega)
    · obtain ⟨hwm, hwa, hfil⟩ := selectBestFit_split_inv hsel
      obtain ⟨hop, hnp, -, hisp⟩ := plan_ok_inv hpl
      have hnofit : ∀ u ∈ pool, u.is_active = true →
          ¬ fitsB (grossWidth req.width_cm tmpl) u = true := by
        intro u hu hua huf
        have : u ∈ (pool.filter (·.is_active)).filter
            (fitsB (grossWidth req.width_cm tmpl)) :=
          List.mem_filter.2 ⟨List.mem_filter.2 ⟨hu, hua⟩, huf⟩
        rw [hfil] at this
        cases this
      have hwvlt : sortWidth wv < grossWidth req.width_cm tmpl := by
        have hnf := hnofit wv hwm hwa
        cases hw : wv.width_cm with
        | none => exact absurd (by simp [fitsB, hw]) hnf
        | some ww =>
          have : ¬ (grossWidth req.width_cm tmpl ≤ ww) := by
            intro hle
            exact hnf (by simp [fitsB, hw, hle])
          simp only [sortWidth, hw, Option.getD_some]
          exact lt_of_not_le this
      have honep : 1 < pl.numPanels := by
        rw [hnp]
        have hx : (1:ℚ) < (grossWidth req.width_cm tmpl -
            resolveOverlap req.overlap_override tmpl.default_overlap_cm) /
            (sortWidth wv -
              resolveOverlap req.overlap_override tmpl.default_overlap_cm) := by
          rw [one_lt_div (by linarith)]
          linarith
        have hcl : (1:ℤ) < ⌈(grossWidth req.width_cm tmpl -
            resolveOverlap req.overlap_override tmpl.default_overlap_cm) /
            (sortWidth wv -
              resolveOverlap req.overlap_override tmpl.default_overlap_cm)⌉ :=
          Int.lt_ceil.2 (by push_cast; exact hx)
        exact lt_max_iff.2 (Or.inr hcl)
      have hs : isSplitOut core = true := by
        simp only [isSplitOut, hpick]
        rw [hisp]
        exact decide_eq_true honep
      have hn : numPanelsOut core = pl.numPanels := by
        simp [numPanelsOut, hpick]
      constructor
      · rw [hsplit, hs]
        refine iff_of_true rfl ?_
        rintro ⟨u, hu, hua, huf⟩
        exact hnofit u hu hua huf
      · rw [hsplit, hs, hnum, hn]
        exact iff_of_true rfl honep
  · intro g p o pl h hgp
    obtain ⟨hop, hn, -, hs⟩ := plan_ok_inv h
    have hx : (g - o) / (p - o) ≤ 1 := by
      rw [div_le_one (by linarith)]
      linarith
    have hc : ⌈(g - o) / (p - o)⌉ ≤ 1 := Int.ceil_le.2 (by push_cast; exact hx)
    have h1 : pl.numPanels = 1 := by
      rw [hn]
      exact max_eq_left hc
    refine ⟨h1, ?_⟩
    rw [hs, h1]
    rfl

/-- Witness for C3 at Scenario B: the calculation splits, no active variant
fits the 201 gross width, and num_panels = 2 > 1. -/
theorem claim_C3_witness :
    (resB.is_split = true ↔
        ¬ ∃ v ∈ [varB], v.is_active = true ∧
          fitsB (grossWidth reqB.width_cm tmplB) v = true) ∧
      (resB.is_split = true ↔ 1 < resB.num_panels) :=
  claim_C3.1 reqB tmplB resB [varB] evalB rfl

/-! ## Claim C4 -/

/-- Claim C4: gross dimensions are the net dimensions plus twice the maximum
effective margin over the required components only; the selected options
never change the gross dimensions; with zero template defaults and no
positive component override the gross dimensions equal the net ones. -/
theorem claim_C4 :
    (∀ (req : CalcRequest) (tmpl : Template) (r : CalculationResult),
      calculate req tmpl = .ok r →
        r.gross_w = req.width_cm + 2 * maxEffMarginW tmpl ∧
        r.gross_h = req.height_cm + 2 * maxEffMarginH tmpl) ∧
    (∀ (w h : ℚ) (q1 q2 : ℕ) (s1 s2 : List Nat) (ov : Option ℚ)
        (tmpl : Template) (r1 r2 : CalculationResult),
      calculate ⟨w, h, q1, s1, ov⟩ tmpl = .ok r1 →
      calculate ⟨w, h, q2, s2, ov⟩ tmpl = .ok r2 →
        r1.gross_w = r2.gross_w ∧ r1.gross_h = r2.gross_h) ∧
    (∀ (req : CalcRequest) (tmpl : Template) (r : CalculationResult),
      calculate req tmpl = .ok r →
      tmpl.default_margin_w_cm = 0 → tmpl.default_margin_h_cm = 0 →
      (∀ c ∈ requiredComps tmpl, rawMarginW c.ref ≤ 0 ∧ rawMarginH c.ref ≤ 0) →
        r.gross_w = req.width_cm ∧ r.gross_h = req.height_cm) := by
  refine ⟨?_, ?_, ?_⟩
  · intro req tmpl r h
    exact calculate_gross h
  · intro w h q1 q2 s1 s2 ov tmpl r1 r2 h1 h2
    obtain ⟨hw1, hh1⟩ := calculate_gross h1
    obtain ⟨hw2, hh2⟩ := calculate_gross h2
    exact ⟨hw1.trans hw2.symm, hh1.trans hh2.symm⟩
  · intro req tmpl r h hdw hdh hraw
    obtain ⟨hw, hh⟩ := calculate_gross h
    have hmw : maxEffMarginW tmpl = 0 := by
      apply foldl_max_le_init
      intro x hx
      obtain ⟨c, hc, hcx⟩ := List.mem_map.1 hx
      rw [← hcx]
      unfold effMarginW
      rw [if_neg (not_lt.2 (hraw c hc).1), hdw]
    have hmh : maxEffMarginH tmpl = 0 := by
      apply foldl_max_le_init
      intro x hx
      obtain ⟨c, hc, hcx⟩ := List.mem_map.1 hx
      rw [← hcx]
      unfold effMarginH
      rw [if_neg (not_lt.2 (hraw c hc).2), hdh]
    constructor
    · rw [hw]
      unfold grossWidth
      rw [hmw]
      ring
    · rw [hh]
      unfold grossHeight
      rw [hmh]
      ring

/-- Witness for C4: Scenario A margins (gross 101 × 101 from net 100 × 100
with 0.5 margins) and Scenario D (zero margins, gross = net). -/
theorem claim_C4_witness :
    (resA1.gross_w = (reqA 1).width_cm + 2 * maxEffMarginW tmplA ∧
      resA1.gross_h = (reqA 1).height_cm + 2 * maxEffMarginH tmplA) ∧
    (resD.gross_w = reqD.width_cm ∧ resD.gross_h = reqD.height_cm) :=
  ⟨claim_C4.1 (reqA 1) tmplA resA1 evalA1,
    claim_C4.2.2 reqD tmplD resD evalD rfl rfl (by
      intro c hc
      simp only [requiredComps, tmplD, List.filter] at hc
      simp only [List.mem_singleton] at hc
      subst hc
      constructor <;> simp [rawMarginW, rawMarginH, varA])⟩

/-! ## Claim C5 -/

/-- Claim C5: the reported COGS total and net-price total are the sums of the
line-item costs and prices (each total finalized with one half-up rounding),
and the margin percentage is derived from those two output totals by the
margin formula, reported as 0 whenever the net total price is 0. -/
theorem claim_C5 (req : CalcRequest) (tmpl : Template) (r : CalculationResult)
    (h : calculate req tmpl = .ok r) :
    r.total_cost_cogs = round2 ((r.lineItems.map (·.cost)).sum) ∧
      r.total_price_net = round2 ((r.lineItems.map (·.price)).sum) ∧
      r.margin_percentage =
        (if r.total_price_net = 0 then 0
          else round1 ((r.total_price_net - r.total_cost_cogs) /
            r.total_price_net * 100)) := by
  obtain ⟨-, core, hcore, hr⟩ := calculate_ok_inv h
  subst hr
  obtain ⟨hp, hc, hm, -, -, -, -, -, hls⟩ :=
    mkResult_spec core req.quantity tmpl req.selected_options
  rw [hp, hc, hm, hls, totalCost_eq_sum, totalPrice_eq_sum]
  exact ⟨rfl, rfl, rfl⟩

/-- Witness for C5 at Scenario A. -/
theorem claim_C5_witness :
    resA1.total_cost_cogs = round2 ((resA1.lineItems.map (·.cost)).sum) ∧
      resA1.total_price_net = round2 ((resA1.lineItems.map (·.price)).sum) ∧
      resA1.margin_percentage =
        (if resA1.total_price_net = 0 then 0
          else round1 ((resA1.total_price_net - resA1.total_cost_cogs) /
            resA1.total_price_net * 100)) :=
  claim_C5 (reqA 1) tmplA resA1 evalA1

/-! ## Claim C7 -/

/-- Claim C7: the reported overlap equals the override when present and
non-negative and the template default otherwise, and the frontend sends an
override exactly when the overlap input is non-empty. -/
theorem claim_C7 :
    (∀ (req : CalcRequest) (tmpl : Template) (r : CalculationResult),
      calculate req tmpl = .ok r →
        r.overlap_used =
          resolveOverlap req.overlap_override tmpl.default_overlap_cm) ∧
    (∀ o d : ℚ, 0 ≤ o → resolveOverlap (some o) d = o) ∧
    (∀ o d : ℚ, o < 0 → resolveOverlap (some o) d = d) ∧
    (∀ d : ℚ, resolveOverlap none d = d) ∧
    (∀ (s : String) (parse : String → ℚ),
      (mkOverlapField s parse).isSome = true ↔ s ≠ "") := by
  refine ⟨?_, ?_, ?_, ?_, ?_⟩
  · intro req tmpl r h
    obtain ⟨-, core, hcore, hr⟩ := calculate_ok_inv h
    obtain ⟨-, -, hov, -⟩ := calcCore_ok_inv hcore
    subst hr
    obtain ⟨-, -, -, -, -, -, -, hused, -⟩ :=
      mkResult_spec core req.quantity tmpl req.selected_options
    rw [hused, hov]
  · intro o d ho
    show (if 0 ≤ o then o else d) = o
    rw [if_pos ho]
  · intro o d ho
    show (if 0 ≤ o then o else d) = d
    rw [if_neg (not_le.2 ho)]
  · intro d
    rfl
  · intro s parse
    unfold mkOverlapField
    by_cases hs : s = ""
    · simp [hs]
    · simp [hs]

/-- Witness for C7: a request overriding the template overlap 1 with 2. -/
theorem claim_C7_witness :
    resOv.overlap_used =
        resolveOverlap reqOv.overlap_override tmplA.default_overlap_cm ∧
      resolveOverlap (some 2) 1 = 2 :=
  ⟨claim_C7.1 reqOv tmplA resOv evalOv, claim_C7.2.1 2 1 (by norm_num)⟩

/-! ## Claim C6 -/

/-- Claim C6: a failed calculation produces an error report only — the
frontend error path leaves the stored result untouched and records the error
message, and an engine error is never an `ok` result. -/
theorem claim_C6 :
    (∀ (prev : UiState) (e : String),
      (handleCalculate prev (.error e)).result = prev.result ∧
      (handleCalculate prev (.error e)).error = some e) ∧
    (∀ (req : CalcRequest) (tmpl : Template) (err : CalcError)
        (r : CalculationResult),
      calculate req tmpl = .error err → calculate req tmpl ≠ .ok r) := by
  constructor
  · intro prev e
    exact ⟨rfl, rfl⟩
  · intro req tmpl err r herr hok
    rw [herr] at hok
    cases hok

/-- Witness for C6: an invalid request (zero width) fails with a validation
error and yields no result; the frontend keeps the previous result. -/
theorem claim_C6_witness :
    (handleCalculate ⟨some resA1, none, true⟩ (.error "request failed")).result =
        (⟨some resA1, none, true⟩ : UiState).result ∧
      calculate reqBad tmplA ≠ .ok resA1 :=
  ⟨(claim_C6.1 ⟨some resA1, none, true⟩ "request failed").1,
    claim_C6.2 reqBad tmplA
      (.validation "net width and height must be positive") resA1 evalBad⟩

/-! ## Claim C8: monotonicity in quantity -/

theorem wellFormed_overlap {tmpl : Template} (h : wellFormedB tmpl = true) :
    0 ≤ tmpl.default_overlap_cm := by
  unfold wellFormedB at h
  rw [Bool.and_eq_true] at h
  exact of_decide_eq_true h.1

theorem wellFormed_variant {tmpl : Template} {c : TemplateComponent}
    {vs : List MaterialVariant} {v : MaterialVariant}
    (h : wellFormedB tmpl = true) (hc : c ∈ tmpl.components)
    (href : c.ref = .material vs) (hv : v ∈ vs) :
    0 ≤ v.cost_price_per_unit ∧ 0 ≤ v.markup_percentage ∧ 0 ≤ sortWidth v := by
  unfold wellFormedB at h
  rw [Bool.and_eq_true] at h
  have h2 := List.all_eq_true.1 h.2 c hc
  rw [href] at h2
  have h3 := List.all_eq_true.1 h2 v hv
  rw [Bool.and_eq_true, Bool.and_eq_true] at h3
  exact ⟨of_decide_eq_true h3.1.1, of_decide_eq_true h3.1.2,
    of_decide_eq_true h3.2⟩

theorem wellFormed_process {tmpl : Template} {c : TemplateComponent}
    {p : Process} (h : wellFormedB tmpl = true) (hc : c ∈ tmpl.components)
    (href : c.ref = .process p) : 0 ≤ p.unit_price := by
  unfold wellFormedB at h
  rw [Bool.and_eq_true] at h
  have h2 := List.all_eq_true.1 h.2 c hc
  rw [href] at h2
  exact of_decide_eq_true h2

theorem firstMaterialPool_inv {tmpl : Template} {pool : List MaterialVariant}
    (h : firstMaterialPool tmpl = some pool) :
    ∃ c ∈ tmpl.components, c.ref = .material pool := by
  unfold firstMaterialPool at h
  cases hl : (requiredComps tmpl).filterMap (fun c =>
      match c.ref with
      | .material vs => some vs
      | .process _ => none) with
  | nil =>
    rw [hl] at h
    cases h
  | cons a t =>
    rw [hl] at h
    have ha : a = pool := by
      injection h
    subst ha
    have hmem : a ∈ (requiredComps tmpl).filterMap (fun c =>
        match c.ref with
        | .material vs => some vs
        | .process _ => none) := by
      rw [hl]
      exact List.mem_cons_self _ _
    obtain ⟨c, hc, hfc⟩ := List.mem_filterMap.1 hmem
    refine ⟨c, (List.mem_filter.1 hc).1, ?_⟩
    cases href : c.ref with
    | material vs =>
      rw [href] at hfc
      simp only [Option.some.injEq] at hfc
      rw [hfc]
    | process p =>
      rw [href] at hfc
      cases hfc

theorem calcCore_variant_mem {w h : ℚ} {ovr : Option ℚ} {tmpl : Template}
    {core : CoreData} (hc : calcCore w h ovr tmpl = .ok core) :
    ∃ pool, firstMaterialPool tmpl = some pool ∧ chosenVariant core ∈ pool := by
  obtain ⟨-, -, -, pool, hpool, hcases⟩ := calcCore_ok_inv hc
  refine ⟨pool, hpool, ?_⟩
  rcases hcases with ⟨v, hsel, hpick⟩ | ⟨wv, pl, hsel, -, hpick⟩
  · have : chosenVariant core = v := by simp [chosenVariant, hpick]
    rw [this]
    exact (selectBestFit_chosen_inv hsel).1
  · have : chosenVariant core = wv := by simp [chosenVariant, hpick]
    rw [this]
    exact (selectBestFit_split_inv hsel).1

theorem effSplitWidth_nonneg {w h : ℚ} {ovr : Option ℚ} {tmpl : Template}
    {core : CoreData} (hc : calcCore w h ovr tmpl = .ok core)
    (hw : 0 ≤ w) (hov : 0 ≤ tmpl.default_overlap_cm)
    (hwidth : 0 ≤ sortWidth (chosenVariant core)) : 0 ≤ effSplitWidth core := by
  obtain ⟨hgw, -, -, pool, hpool, hcases⟩ := calcCore_ok_inv hc
  rcases hcases with ⟨v, hsel, hpick⟩ | ⟨wv, pl, hsel, hpl, hpick⟩
  · have he : effSplitWidth core = core.grossW := by simp [effSplitWidth, hpick]
    rw [he, hgw]
    unfold grossWidth
    have := maxEffMarginW_nonneg tmpl
    linarith
  · have he : effSplitWidth core = pl.totalMaterialConsumed := by
      simp [effSplitWidth, hpick]
    have hcv : chosenVariant core = wv := by simp [chosenVariant, hpick]
    obtain ⟨hop, hn, hcons, -⟩ := plan_ok_inv hpl
    have hn1 : (1:ℤ) ≤ pl.numPanels := by
      rw [hn]
      exact le_max_left _ _
    have hn1q : (1:ℚ) ≤ (pl.numPanels : ℚ) := by exact_mod_cast hn1
    have hp0 : 0 ≤ sortWidth wv := hcv ▸ hwidth
    have ho0 : 0 ≤ resolveOverlap ovr tmpl.default_overlap_cm :=
      resolveOverlap_nonneg hov
    have hprod : 0 ≤ ((pl.numPanels : ℚ) - 1) *
        (sortWidth wv - resolveOverlap ovr tmpl.default_overlap_cm) :=
      mul_nonneg (by linarith) (by linarith)
    rw [he, hcons]
    nlinarith

theorem lineFor_price_mono {core : CoreData} {q1 q2 : ℕ} (hq : q1 ≤ q2)
    (c : CompRef)
    (hpp : 0 ≤ effSplitWidth core) (hgh : 0 ≤ core.grossH)
    (hcp : 0 ≤ (chosenVariant core).cost_price_per_unit)
    (hmk : 0 ≤ (chosenVariant core).markup_percentage)
    (hup : ∀ p, c = .process p → 0 ≤ p.unit_price) :
    (lineFor core q1 c).price ≤ (lineFor core q2 c).price := by
  have hqc : (q1:ℚ) ≤ (q2:ℚ) := by exact_mod_cast hq
  cases c with
  | material vs =>
    have hper : 0 ≤ materialPerPiece core (chosenVariant core) := by
      unfold materialPerPiece
      cases (chosenVariant core).unit with
      | m2 => exact mul_nonneg hpp hgh
      | mb => exact hpp
      | pcs => norm_num
    have hco : (0:ℚ) ≤ 1 + (chosenVariant core).markup_percentage / 100 := by
      linarith
    show materialPerPiece core (chosenVariant core) * (q1:ℚ) *
        (chosenVariant core).cost_price_per_unit *
        (1 + (chosenVariant core).markup_percentage / 100) ≤
      materialPerPiece core (chosenVariant core) * (q2:ℚ) *
        (chosenVariant core).cost_price_per_unit *
        (1 + (chosenVariant core).markup_percentage / 100)
    nlinarith [mul_nonneg (mul_nonneg hper hcp) hco,
      mul_nonneg (sub_nonneg.2 hqc) (mul_nonneg (mul_nonneg hper hcp) hco)]
  | process p =>
    have hu := hup p rfl
    cases hm : p.method with
    | AREA => simp [lineFor, hm]
    | LINEAR => simp [lineFor, hm]
    | TIME => simp [lineFor, hm]
    | UNIT =>
      have e1 : (lineFor core q1 (.process p)).price =
          (q1:ℚ) * p.unit_price + p.setup_fee := by
        simp [lineFor, hm]
      have e2 : (lineFor core q2 (.process p)).price =
          (q2:ℚ) * p.unit_price + p.setup_fee := by
        simp [lineFor, hm]
      rw [e1, e2]
      exact add_le_add_right (mul_le_mul_of_nonneg_right hqc hu) _

theorem totalPrice_lineItems_mono {core : CoreData} {tmpl : Template}
    {sel : List Nat} {q1 q2 : ℕ} (hq : q1 ≤ q2)
    (hpp : 0 ≤ effSplitWidth core) (hgh : 0 ≤ core.grossH)
    (hcp : 0 ≤ (chosenVariant core).cost_price_per_unit)
    (hmk : 0 ≤ (chosenVariant core).markup_percentage)
    (hproc : ∀ c ∈ tmpl.components, ∀ p, c.ref = .process p → 0 ≤ p.unit_price) :
    totalPrice (lineItems core q1 tmpl sel) ≤
      totalPrice (lineItems core q2 tmpl sel) := by
  rw [totalPrice_eq_sum, totalPrice_eq_sum]
  unfold lineItems
  rw [List.map_map, List.map_map]
  apply List.sum_le_sum
  intro c hc
  have hcm : c ∈ tmpl.components := (List.mem_filter.1 hc).1
  simp only [Function.comp]
  exact lineFor_price_mono hq c.ref hpp hgh hcp hmk
    (fun p hp => hproc c hcm p hp)

/-- Claim C8: for a fixed catalog and request, the net total price is
monotone non-decreasing in the requested quantity. -/
theorem claim_C8 (tmpl : Template) (w h : ℚ) (sel : List Nat) (ov : Option ℚ)
    (q1 q2 : ℕ) (r1 r2 : CalculationResult)
    (hwf : wellFormedB tmpl = true) (hq : q1 ≤ q2)
    (h1 : calculate ⟨w, h, q1, sel, ov⟩ tmpl = .ok r1)
    (h2 : calculate ⟨w, h, q2, sel, ov⟩ tmpl = .ok r2) :
    r1.total_price_net ≤ r2.total_price_net := by
  obtain ⟨hv1, core1, hcore1, hr1⟩ := calculate_ok_inv h1
  obtain ⟨hv2, core2, hcore2, hr2⟩ := calculate_ok_inv h2
  have hcc : core2 = core1 := by
    rw [show calcCore (CalcRequest.mk w h q2 sel ov).width_cm
        (CalcRequest.mk w h q2 sel ov).height_cm
        (CalcRequest.mk w h q2 sel ov).overlap_override tmpl =
      calcCore (CalcRequest.mk w h q1 sel ov).width_cm
        (CalcRequest.mk w h q1 sel ov).height_cm
        (CalcRequest.mk w h q1 sel ov).overlap_override tmpl from rfl] at hcore2
    rw [hcore1] at hcore2
    injection hcore2 with h3
    exact h3.symm
  rw [hcc] at hr2
  subst hr1
  subst hr2
  obtain ⟨hp1, -⟩ := mkResult_spec core1 q1 tmpl sel
  obtain ⟨hp2, -⟩ := mkResult_spec core1 q2 tmpl sel
  rw [hp1, hp2]
  apply round2_mono
  have hw0 : (0:ℚ) < w := (validate_ok_inv hv1).1
  have hov0 : 0 ≤ tmpl.default_overlap_cm := wellFormed_overlap hwf
  obtain ⟨pool, hpool, hmem⟩ := calcCore_variant_mem hcore1
  obtain ⟨c, hcm, hcref⟩ := firstMaterialPool_inv hpool
  obtain ⟨hcp, hmk, hwidth⟩ := wellFormed_variant hwf hcm hcref hmem
  have hesw := effSplitWidth_nonneg hcore1 (le_of_lt hw0) hov0 hwidth
  have hgh : 0 ≤ core1.grossH := by
    obtain ⟨-, hghe, -, -⟩ := calcCore_ok_inv hcore1
    rw [hghe]
    unfold grossHeight
    have hh0 : (0:ℚ) < h := (validate_ok_inv hv1).2.1
    have := maxEffMarginH_nonneg tmpl
    linarith
  exact totalPrice_lineItems_mono hq hesw hgh hcp hmk
    (fun c2 hc2 p hp => wellFormed_process hwf hc2 hp)

/-- Witness for C8: Scenario A at quantities 1 and 2. -/
theorem claim_C8_witness :
    wellFormedB tmplA = true ∧ (1:ℕ) ≤ 2 ∧
      resA1.total_price_net ≤ resA2.total_price_net := by
  have hwf : wellFormedB tmplA = true := by
    norm_num [wellFormedB, tmplA, varA, procCNC, procLam, sortWidth]
  exact ⟨hwf, by norm_num,
    claim_C8 tmplA 100 100 [] none 1 2 resA1 resA2 hwf (by norm_num)
      evalA1 evalA2⟩

/-! ## Claim C9 -/

/-- Claim C9: every component payload produced by the template editor has
exactly one of material_id / process_id set, carrying the chosen id. -/
theorem claim_C9 (c : EditorComponent) :
    ((buildComponentPayload c).material_id = some c.refId ∧
      (buildComponentPayload c).process_id = none) ∨
    ((buildComponentPayload c).material_id = none ∧
      (buildComponentPayload c).process_id = some c.refId) := by
  cases hk : c.kind with
  | material =>
    left
    constructor <;> simp [buildComponentPayload, hk]
  | process =>
    right
    constructor <;> simp [buildComponentPayload, hk]

/-! ## Claim C10 -/

/-- Claim C10: on a duplicate-free selection, the option toggle adds an
absent id, removes every occurrence of a present id, keeps the list
duplicate-free, and toggling twice restores the original membership. -/
theorem claim_C10 (prev : List Nat) (optionId : Nat) (hnd : prev.Nodup) :
    (optionId ∉ prev → ∀ x, x ∈ handleOptionToggle prev optionId ↔
        (x ∈ prev ∨ x = optionId)) ∧
      (optionId ∈ prev → ∀ x, x ∈ handleOptionToggle prev optionId ↔
        (x ∈ prev ∧ x ≠ optionId)) ∧
      (handleOptionToggle prev optionId).Nodup ∧
      (∀ x, x ∈ handleOptionToggle (handleOptionToggle prev optionId) optionId ↔
        x ∈ prev) := by
  by_cases hmem : optionId ∈ prev
  · have hcont : prev.contains optionId = true := by simpa using hmem
    have ht1 : handleOptionToggle prev optionId =
        prev.filter (fun id => id ≠ optionId) := by
      unfold handleOptionToggle
      rw [if_pos hcont]
    have hmemfil : ∀ x, x ∈ prev.filter (fun id => id ≠ optionId) ↔
        (x ∈ prev ∧ x ≠ optionId) := by
      intro x
      simp [List.mem_filter]
    refine ⟨fun hno => absurd hmem hno, fun _ => by rw [ht1]; exact hmemfil,
      ?_, ?_⟩
    · rw [ht1]
      exact hnd.filter _
    · intro x
      have hnomem : optionId ∉ prev.filter (fun id => id ≠ optionId) := by
        intro hx
        exact ((hmemfil optionId).1 hx).2 rfl
      have hcont2 : (prev.filter (fun id => id ≠ optionId)).contains optionId
          = false := by
        simp only [Bool.eq_false_iff]
        intro hx
        exact hnomem (List.mem_of_elem_eq_true hx)
      have ht2 : handleOptionToggle (handleOptionToggle prev optionId) optionId
          = prev.filter (fun id => id ≠ optionId) ++ [optionId] := by
        rw [ht1]
        unfold handleOptionToggle
        rw [hcont2]
        simp
      rw [ht2]
      simp only [List.mem_append, List.mem_singleton, hmemfil x]
      constructor
      · rintro (⟨hx, -⟩ | rfl)
        · exact hx
        · exact hmem
      · intro hx
        by_cases hxid : x = optionId
        · exact Or.inr hxid
        · exact Or.inl ⟨hx, hxid⟩
  · have hcont : prev.contains optionId = false := by
      simp only [Bool.eq_false_iff]
      intro hx
      exact hmem (by simpa using hx)
    have ht1 : handleOptionToggle prev optionId = prev ++ [optionId] := by
      unfold handleOptionToggle
      rw [hcont]
      simp
    refine ⟨fun _ x => by rw [ht1]; simp, fun hyes => absurd hyes hmem, ?_, ?_⟩
    · rw [ht1]
      refine List.Nodup.append hnd (List.nodup_singleton _) ?_
      intro x hx hx2
      rw [List.mem_singleton] at hx2
      subst hx2
      exact hmem hx
    · intro x
      have hcont2 : (prev ++ [optionId]).contains optionId = true := by simp
      have ht2 : handleOptionToggle (handleOptionToggle prev optionId) optionId
          = (prev ++ [optionId]).filter (fun id => id ≠ optionId) := by
        rw [ht1]
        unfold handleOptionToggle
        rw [if_pos hcont2]
      rw [ht2]
      simp only [List.mem_filter, List.mem_append, List.mem_singleton,
        decide_eq_true_eq]
      constructor
      · rintro ⟨hor | rfl, hne⟩
        · exact hor
        · exact absurd rfl hne
      · intro hx
        refine ⟨Or.inl hx, ?_⟩
        intro hxid
        subst hxid
        exact hmem hx

/-- Witness for C10 on the concrete selection [1, 2] toggling id 2. -/
theorem claim_C10_witness :
    ((2:ℕ) ∉ [1, 2] → ∀ x, x ∈ handleOptionToggle [1, 2] 2 ↔
        (x ∈ [1, 2] ∨ x = 2)) ∧
      ((2:ℕ) ∈ [1, 2] → ∀ x, x ∈ handleOptionToggle [1, 2] 2 ↔
        (x ∈ [1, 2] ∧ x ≠ 2)) ∧
      (handleOptionToggle [1, 2] 2).Nodup ∧
      (∀ x, x ∈ handleOptionToggle (handleOptionToggle [1, 2] 2) 2 ↔
        x ∈ [1, 2]) :=
  claim_C10 [1, 2] 2 (by decide)

end PrintFlow
